import Mathlib

/-!
Verification of the `kinvolk/k8s` client core call-sites: the ThirdPartyResources
client (`src/tprs.go`) and the Discovery client with its typed watch adapters
(`src/unnamed/part_000`).

The shallow embedding records, for each client operation, the validation performed
and the dispatch call (codec, method, URL) handed to the core dispatcher. The core
dispatcher, the core `watcher`, `proto.Unmarshal` and the URL builders are not among
the shown sources; they are modelled as abstract oracles or, where the spec fixes
their shape, as definitions marked `Modelled from the spec:`.
-/

/-- Wire codecs selectable per dispatch: `jsonCodec` (structured text) and `pbCodec`
(compact binary), mirroring the two package-level codec values the call sites pass. -/
inductive Codec
  | jsonCodec
  | pbCodec
deriving DecidableEq

/-- The kind of core dispatcher entry point a call site invokes: `Client.get`,
`Client.create` (which carries an HTTP method string, "POST" or "PUT"),
`Client.delete`, or `Client.watch`. -/
inductive CallKind
  | get
  | create (method : String)
  | delete
  | watch
deriving DecidableEq

/-- One invocation of the core dispatcher as observed at a call site: which entry
point, which codec was passed (`Client.watch` takes no codec argument), and the URL.
A client operation that returns a `DispatchCall` performed exactly this network call;
one that returns an error before producing a `DispatchCall` made no network call. -/
structure DispatchCall where
  kind  : CallKind
  codec : Option Codec
  url   : String
deriving DecidableEq

/-- Embeds `checkResource` from `src/tprs.go` lines 96-113: five ordered emptiness
checks, each returning a fixed error message; `none` models the `nil` (success)
return. -/
def checkResource (apiGroup apiVersion resource ns name : String) : Option String :=
  if apiGroup = "" then some "no api group provided"
  else if apiVersion = "" then some "no api version provided"
  else if resource = "" then some "no resource version provided"
  else if ns = "" then some "no namespace provided"
  else if name = "" then some "no resource name provided"
  else none

/-- The five resource-identity fields checked by `checkResource`, in source order. -/
inductive ResField
  | group
  | version
  | resource
  | ns
  | name
deriving DecidableEq

/-- Projects the argument of `checkResource` that belongs to a given field. -/
def fieldArg : ResField → String → String → String → String → String → String
  | .group,    g, _, _, _, _ => g
  | .version,  _, v, _, _, _ => v
  | .resource, _, _, r, _, _ => r
  | .ns,       _, _, _, n, _ => n
  | .name,     _, _, _, _, m => m

/-- The error message `checkResource` emits for a given missing field, verbatim from
`src/tprs.go` (note the `resource` message reads "no resource version provided"). -/
def fieldMsg : ResField → String
  | .group    => "no api group provided"
  | .version  => "no api version provided"
  | .resource => "no resource version provided"
  | .ns       => "no namespace provided"
  | .name     => "no resource name provided"

/-- A human name for each field, used to state that an error message names the
field it reports as missing. -/
def fieldName : ResField → String
  | .group    => "api group"
  | .version  => "api version"
  | .resource => "resource"
  | .ns       => "namespace"
  | .name     => "name"

/-- Whether the second character list begins with the first. -/
def takesAt : List Char → List Char → Bool
  | [], _ => true
  | _ :: _, [] => false
  | c :: cs, d :: ds => c == d && takesAt cs ds

/-- Whether the first character list occurs contiguously inside the second. -/
def occursIn (sub : List Char) : List Char → Bool
  | [] => sub.isEmpty
  | d :: rest => takesAt sub (d :: rest) || occursIn sub rest

/-- Whether `sub` occurs as a substring of `s`. -/
def containsStr (s sub : String) : Bool := occursIn sub.data s.data

/-- Exactly the field `f` among the five `checkResource` arguments is empty. -/
def onlyEmptyAt (f : ResField) (g v r n m : String) : Prop :=
  fieldArg f g v r n m = "" ∧ ∀ f2 : ResField, f2 ≠ f → fieldArg f2 g v r n m ≠ ""

/-- Modelled from the spec: `Client.urlFor` is not among the shown sources. Section 6
gives the URL template /apis/group/version/namespaces/ns/resource/name, with the
name segment absent for collection operations (the call sites pass an empty name). -/
def urlFor (apiGroup apiVersion ns resource name : String) : String :=
  "/apis/" ++ apiGroup ++ "/" ++ apiVersion ++ "/namespaces/" ++ ns ++ "/" ++ resource ++
    (if name = "" then "" else "/" ++ name)

/-- Modelled from the spec: Go's `path.Join` joins its nonempty segments with a
slash (its Clean pass is the identity on the already-clean segments used here). -/
def pathJoin (elems : List String) : String :=
  String.intercalate "/" (elems.filter (fun s => !s.isEmpty))

/-- Modelled from the spec: `Client.urlForPath` is not among the shown sources; it
resolves a relative path against the server base URL, modelled as rooting the path. -/
def urlForPath (p : String) : String := "/" ++ p

/-- Embeds the `ThirdPartyResources` client struct from `src/tprs.go` (the `c *Client`
field is modelled by having each operation return the `DispatchCall` it hands to the
dispatcher). -/
structure ThirdPartyResources where
  apiGroup   : String
  apiVersion : String
deriving DecidableEq

/-- Embeds `ThirdPartyResources.Create`: validates with the placeholder name
"not required", then dispatches `create` with `jsonCodec`, method "POST" and the
collection URL (empty name). An `Except.error` is a validation error returned before
any dispatch. -/
def ThirdPartyResources.Create (t : ThirdPartyResources) (resource ns : String) :
    Except String DispatchCall :=
  match checkResource t.apiGroup t.apiVersion resource ns "not required" with
  | some e => .error e
  | none => .ok ⟨CallKind.create "POST", some Codec.jsonCodec,
      urlFor t.apiGroup t.apiVersion ns resource ""⟩

/-- Embeds `ThirdPartyResources.Update`: validates with the placeholder name
"not required" (the `name` argument is NOT validated, exactly as in the source),
then dispatches `create` with `jsonCodec`, method "PUT" and the single-object URL
that does include `name`. -/
def ThirdPartyResources.Update (t : ThirdPartyResources) (resource ns name : String) :
    Except String DispatchCall :=
  match checkResource t.apiGroup t.apiVersion resource ns "not required" with
  | some e => .error e
  | none => .ok ⟨CallKind.create "PUT", some Codec.jsonCodec,
      urlFor t.apiGroup t.apiVersion ns resource name⟩

/-- Embeds `ThirdPartyResources.Get`: validates all five fields including `name`,
then dispatches `get` with `jsonCodec` and the single-object URL. -/
def ThirdPartyResources.Get (t : ThirdPartyResources) (resource ns name : String) :
    Except String DispatchCall :=
  match checkResource t.apiGroup t.apiVersion resource ns name with
  | some e => .error e
  | none => .ok ⟨CallKind.get, some Codec.jsonCodec,
      urlFor t.apiGroup t.apiVersion ns resource name⟩

/-- Embeds `ThirdPartyResources.Delete`: validates all five fields including `name`,
then dispatches `delete` with `jsonCodec` and the single-object URL. -/
def ThirdPartyResources.Delete (t : ThirdPartyResources) (resource ns name : String) :
    Except String DispatchCall :=
  match checkResource t.apiGroup t.apiVersion resource ns name with
  | some e => .error e
  | none => .ok ⟨CallKind.delete, some Codec.jsonCodec,
      urlFor t.apiGroup t.apiVersion ns resource name⟩

/-- Embeds `ThirdPartyResources.List`: validates with the placeholder name
"name not required", then dispatches `get` with `jsonCodec` and the collection URL. -/
def ThirdPartyResources.List (t : ThirdPartyResources) (resource ns : String) :
    Except String DispatchCall :=
  match checkResource t.apiGroup t.apiVersion resource ns "name not required" with
  | some e => .error e
  | none => .ok ⟨CallKind.get, some Codec.jsonCodec,
      urlFor t.apiGroup t.apiVersion ns resource ""⟩

/-- Embeds `ThirdPartyResources.Watch`: validates with the placeholder name
"name not required", then opens a watch (no codec argument) on the collection URL.
An `Except.error` means a nil watcher and the validation error are returned before
any dispatch. -/
def ThirdPartyResources.Watch (t : ThirdPartyResources) (resource ns : String) :
    Except String DispatchCall :=
  match checkResource t.apiGroup t.apiVersion resource ns "name not required" with
  | some e => .error e
  | none => .ok ⟨CallKind.watch, none, urlFor t.apiGroup t.apiVersion ns resource ""⟩

/-- Embeds `runtime.Unknown` (external generated type): the adapters only read its
`Raw` payload bytes, modelled as a list of byte values. -/
structure Unknown where
  Raw : List Nat
deriving DecidableEq

/-- Models the core `watcher` (not among the shown sources): the shown adapters
observe of it only the outcome of one `next()` call — either a stream error or an
event envelope with an `Unknown` payload — and the outcome of `Close()`. `ε` is the
opaque Go error type, `α` the `versioned.Event` type, both never inspected by the
adapters. -/
structure Watcher (ε α : Type) where
  nextResult  : Except ε (α × Unknown)
  closeResult : Option ε

/-- The wrapped watcher's `next()`. -/
def Watcher.next {ε α : Type} (w : Watcher ε α) : Except ε (α × Unknown) :=
  w.nextResult

/-- The wrapped watcher's `Close()`. -/
def Watcher.Close {ε α : Type} (w : Watcher ε α) : Option ε :=
  w.closeResult

/-- Embeds the `APIWatcher` adapter struct from `src/unnamed/part_000`. -/
structure APIWatcher (ε α : Type) where
  watcher : Watcher ε α

/-- Embeds `APIWatcher.Next`: calls the wrapped watcher's `next`; on stream error
returns (nil, nil, err); on success runs `proto.Unmarshal` (external library, passed
as the `dec` oracle) on `unknown.Raw`; a decode error is returned as (nil, nil, err),
success as (event, decoded, nil). `ρ` is the concrete resource type
(`unversioned.APIResource` at this call site). -/
def APIWatcher.Next {ε α ρ : Type} (w : APIWatcher ε α) (dec : List Nat → Except ε ρ) :
    Option α × Option ρ × Option ε :=
  match w.watcher.next with
  | .error e => (none, none, some e)
  | .ok (event, unknown) =>
    match dec unknown.Raw with
    | .error e => (none, none, some e)
    | .ok resp => (some event, some resp, none)

/-- Embeds `APIWatcher.Close`: delegates to the wrapped watcher's `Close`. -/
def APIWatcher.Close {ε α : Type} (w : APIWatcher ε α) : Option ε :=
  w.watcher.Close

/-- Embeds the `ThirdPartyResourceWatcher` adapter struct from `src/tprs.go`. -/
structure ThirdPartyResourceWatcher (ε α : Type) where
  watcher : Watcher ε α

/-- Embeds `ThirdPartyResourceWatcher.Next`: calls the wrapped watcher's `next`; on
stream error returns (nil, nil, err); on success it only prints `unknown.Raw` (the
print output is the first component of the result) — the `proto.Unmarshal` call is
commented out in the source, so the typed object `resp` stays the nil interface
value (`none` at any caller-supplied type `ρ`) and a nil error is returned. -/
def ThirdPartyResourceWatcher.Next {ε α : Type} (ρ : Type)
    (w : ThirdPartyResourceWatcher ε α) :
    List (List Nat) × (Option α × Option ρ × Option ε) :=
  match w.watcher.next with
  | .error e => ([], (none, none, some e))
  | .ok (event, unknown) => ([unknown.Raw], (some event, none, none))

/-- Embeds `ThirdPartyResourceWatcher.Close`: delegates to the wrapped watcher's
`Close`. -/
def ThirdPartyResourceWatcher.Close {ε α : Type} (w : ThirdPartyResourceWatcher ε α) :
    Option ε :=
  w.watcher.Close

/-- Embeds the dispatch call of `Discovery.Version`: `client.get` with `jsonCodec`
on the "version" path. -/
def Discovery.versionCall : DispatchCall :=
  ⟨CallKind.get, some Codec.jsonCodec, urlForPath "version"⟩

/-- Embeds the dispatch call of `Discovery.APIGroups`: `client.get` with `pbCodec`
on the "apis" path. -/
def Discovery.apiGroupsCall : DispatchCall :=
  ⟨CallKind.get, some Codec.pbCodec, urlForPath "apis"⟩

/-- Embeds the dispatch call of `Discovery.APIGroup`: `client.get` with `pbCodec`
on the joined "apis"/name path. -/
def Discovery.apiGroupCall (name : String) : DispatchCall :=
  ⟨CallKind.get, some Codec.pbCodec, urlForPath (pathJoin ["apis", name])⟩

/-- Embeds the dispatch call of `Discovery.APIResources`: `client.get` with `pbCodec`
on the joined "apis"/groupName/groupVersion path. -/
def Discovery.apiResourcesCall (groupName groupVersion : String) : DispatchCall :=
  ⟨CallKind.get, some Codec.pbCodec, urlForPath (pathJoin ["apis", groupName, groupVersion])⟩

/-- The URL `Discovery.APIWatch` builds, straight from the source: the joined
"apis"/groupName/groupVersion path, with no validation of either argument. -/
def Discovery.apiWatchUrl (groupName groupVersion : String) : String :=
  urlForPath (pathJoin ["apis", groupName, groupVersion])

/-- Embeds `Discovery.APIWatch`: builds the URL and opens the watch directly
(`client.watch` is the `watchOpen` oracle); on failure returns that error unchanged,
on success wraps the obtained watcher in an `APIWatcher`. No identity validation is
performed on `groupName` or `groupVersion`. -/
def Discovery.APIWatch {ε α : Type} (watchOpen : String → Except ε (Watcher ε α))
    (groupName groupVersion : String) : Except ε (APIWatcher ε α) :=
  match watchOpen (Discovery.apiWatchUrl groupName groupVersion) with
  | .error e => .error e
  | .ok w => .ok ⟨w⟩

/-- C1: `checkResource` succeeds (returns `none`, i.e. nil) whenever all five
arguments are non-empty; and whenever exactly one field is empty it returns the
fixed error message for that field, which names the missing field (contains its
name as a substring) and is distinct from every other field's message. -/
theorem checkResource_correct (g v r n m : String) :
    (g ≠ "" → v ≠ "" → r ≠ "" → n ≠ "" → m ≠ "" → checkResource g v r n m = none)
  ∧ (∀ f : ResField, onlyEmptyAt f g v r n m →
      checkResource g v r n m = some (fieldMsg f)
      ∧ containsStr (fieldMsg f) (fieldName f) = true
      ∧ ∀ f2 : ResField, fieldMsg f2 = fieldMsg f → f2 = f) := by
  constructor
  · intro hg hv hr hn hm
    simp [checkResource, hg, hv, hr, hn, hm]
  · rintro f ⟨hz, ho⟩
    refine ⟨?_, ?_, ?_⟩
    · cases f with
      | group =>
        have hg : g = "" := hz
        simp [checkResource, hg, fieldMsg]
      | version =>
        have hg : g ≠ "" := ho .group (by decide)
        have hv : v = "" := hz
        simp [checkResource, hg, hv, fieldMsg]
      | resource =>
        have hg : g ≠ "" := ho .group (by decide)
        have hv : v ≠ "" := ho .version (by decide)
        have hr : r = "" := hz
        simp [checkResource, hg, hv, hr, fieldMsg]
      | ns =>
        have hg : g ≠ "" := ho .group (by decide)
        have hv : v ≠ "" := ho .version (by decide)
        have hr : r ≠ "" := ho .resource (by decide)
        have hn : n = "" := hz
        simp [checkResource, hg, hv, hr, hn, fieldMsg]
      | name =>
        have hg : g ≠ "" := ho .group (by decide)
        have hv : v ≠ "" := ho .version (by decide)
        have hr : r ≠ "" := ho .resource (by decide)
        have hn : n ≠ "" := ho .ns (by decide)
        have hm : m = "" := hz
        simp [checkResource, hg, hv, hr, hn, hm, fieldMsg]
    · cases f <;> decide
    · intro f2 h
      revert h
      cases f <;> cases f2 <;> decide

/-- C1 witness: with only the resource argument empty, `checkResource` returns the
resource field's message. -/
theorem checkResource_correct_witness :
    checkResource "g" "v" "" "ns" "nm" = some (fieldMsg ResField.resource) :=
  ((checkResource_correct "g" "v" "" "ns" "nm").2 ResField.resource
    ⟨rfl, by intro f2 h; cases f2 <;> first | exact absurd rfl h | decide⟩).1

/-- C2 evidence (code bug): `Update` with an empty name passes validation and
dispatches a PUT to a URL missing its final segment, because the source passes the
placeholder string "not required" as the name to `checkResource`; `Get` and `Delete`
with the same arguments fail validation with the missing-name error as the claim
says all three should. -/
theorem update_skips_name_validation :
    ThirdPartyResources.Update ⟨"g", "v"⟩ "r" "ns" ""
      = Except.ok ⟨CallKind.create "PUT", some Codec.jsonCodec, urlFor "g" "v" "ns" "r" ""⟩
  ∧ ThirdPartyResources.Get ⟨"g", "v"⟩ "r" "ns" "" = Except.error "no resource name provided"
  ∧ ThirdPartyResources.Delete ⟨"g", "v"⟩ "r" "ns" ""
      = Except.error "no resource name provided" :=
  ⟨rfl, rfl, rfl⟩

/-- C3 counterexample: the third-party typed watch adapter, given a successful
underlying `next` carrying a nonempty raw payload, returns no typed object and no
error (it only prints the raw bytes) — so it is not the case that every typed watch
adapter decodes the envelope's raw payload into the caller-supplied concrete type. -/
theorem tpr_next_ignores_payload_counterexample :
    ThirdPartyResourceWatcher.Next (ε := String) (α := Nat) Nat
        ⟨⟨Except.ok (0, ⟨[1, 2, 3]⟩), none⟩⟩
      = ([[1, 2, 3]], (some 0, none, none)) :=
  rfl

/-- C3 amended: `APIWatcher.Next` decodes the envelope's raw payload via the binary
codec, returning the event with the decoded object on success and the decode error
(with nil event and nil object) on decode failure; `ThirdPartyResourceWatcher.Next`
performs no typed decode and returns the event with a nil typed object and nil
error. -/
theorem typed_adapter_next_amended {ε α ρ : Type} (dec : List Nat → Except ε ρ)
    (u : Unknown) (a : α) (cr : Option ε) :
    (∀ r, dec u.Raw = .ok r →
        APIWatcher.Next ⟨⟨.ok (a, u), cr⟩⟩ dec = (some a, some r, none))
  ∧ (∀ e, dec u.Raw = .error e →
        APIWatcher.Next ⟨⟨.ok (a, u), cr⟩⟩ dec = (none, none, some e))
  ∧ ThirdPartyResourceWatcher.Next ρ ⟨⟨.ok (a, u), cr⟩⟩
      = ([u.Raw], (some a, none, none)) := by
  refine ⟨fun r h => ?_, fun e h => ?_, rfl⟩ <;>
    simp [APIWatcher.Next, Watcher.next, h]

/-- C3 witness: a concrete decode succeeding on the payload bytes is returned as the
typed object together with the event. -/
theorem typed_adapter_next_amended_witness :
    APIWatcher.Next ⟨⟨Except.ok (0, Unknown.mk [1]), none⟩⟩
        (fun l => if l = [1] then Except.ok 7 else Except.error "bad")
      = (some 0, some 7, none) :=
  ((typed_adapter_next_amended
      (fun l => if l = [1] then Except.ok 7 else Except.error "bad")
      (Unknown.mk [1]) 0 none).1 7 rfl)

/-- C4 counterexample: `Discovery.Version` dispatches with the structured-text codec,
which is distinct from the compact-binary codec — so not every Discovery operation
uses the compact-binary codec. -/
theorem discovery_version_codec_counterexample :
    Discovery.versionCall.codec = some Codec.jsonCodec
  ∧ Codec.jsonCodec ≠ Codec.pbCodec :=
  ⟨rfl, by decide⟩

/-- C4 amended: `APIGroups`, `APIGroup` and `APIResources` dispatch with the
compact-binary codec, while `Version` dispatches with the structured-text codec. -/
theorem discovery_codecs_amended (name g v : String) :
    Discovery.apiGroupsCall.codec = some Codec.pbCodec
  ∧ (Discovery.apiGroupCall name).codec = some Codec.pbCodec
  ∧ (Discovery.apiResourcesCall g v).codec = some Codec.pbCodec
  ∧ Discovery.versionCall.codec = some Codec.jsonCodec :=
  ⟨rfl, rfl, rfl, rfl⟩

/-- C5: whenever any of the five ThirdPartyResources CRUD operations reaches the
dispatcher (returns a dispatch call), the codec it passed is the structured-text
codec, for every client and every argument. -/
theorem tpr_ops_use_json_codec (t : ThirdPartyResources) (resource ns name : String)
    (c : DispatchCall) :
    (t.Create resource ns = .ok c → c.codec = some Codec.jsonCodec)
  ∧ (t.Update resource ns name = .ok c → c.codec = some Codec.jsonCodec)
  ∧ (t.Get resource ns name = .ok c → c.codec = some Codec.jsonCodec)
  ∧ (t.Delete resource ns name = .ok c → c.codec = some Codec.jsonCodec)
  ∧ (t.List resource ns = .ok c → c.codec = some Codec.jsonCodec) := by
  refine ⟨?_, ?_, ?_, ?_, ?_⟩
  · intro h
    unfold ThirdPartyResources.Create at h
    cases hc : checkResource t.apiGroup t.apiVersion resource ns "not required" with
    | some e => rw [hc] at h; exact Except.noConfusion h
    | none => rw [hc] at h; injection h with h1; rw [← h1]
  · intro h
    unfold ThirdPartyResources.Update at h
    cases hc : checkResource t.apiGroup t.apiVersion resource ns "not required" with
    | some e => rw [hc] at h; exact Except.noConfusion h
    | none => rw [hc] at h; injection h with h1; rw [← h1]
  · intro h
    unfold ThirdPartyResources.Get at h
    cases hc : checkResource t.apiGroup t.apiVersion resource ns name with
    | some e => rw [hc] at h; exact Except.noConfusion h
    | none => rw [hc] at h; injection h with h1; rw [← h1]
  · intro h
    unfold ThirdPartyResources.Delete at h
    cases hc : checkResource t.apiGroup t.apiVersion resource ns name with
    | some e => rw [hc] at h; exact Except.noConfusion h
    | none => rw [hc] at h; injection h with h1; rw [← h1]
  · intro h
    unfold ThirdPartyResources.List at h
    cases hc : checkResource t.apiGroup t.apiVersion resource ns "name not required" with
    | some e => rw [hc] at h; exact Except.noConfusion h
    | none => rw [hc] at h; injection h with h1; rw [← h1]

/-- C5 witness: a concrete `Get` reaching the dispatcher passed the structured-text
codec. -/
theorem tpr_ops_use_json_codec_witness :
    (DispatchCall.mk CallKind.get (some Codec.jsonCodec) (urlFor "g" "v" "n" "r" "x")).codec
      = some Codec.jsonCodec :=
  (tpr_ops_use_json_codec ⟨"g", "v"⟩ "r" "n" "x"
      (DispatchCall.mk CallKind.get (some Codec.jsonCodec)
        (urlFor "g" "v" "n" "r" "x"))).2.2.1 rfl

/-- C6: for every ThirdPartyResources operation, if the validation it performs
fails, the operation returns exactly that validation error (so no dispatch call is
made: no network traffic and no decode into the caller-supplied response target;
for `Watch` the error return also means a nil watcher). -/
theorem tpr_validation_short_circuits (t : ThirdPartyResources)
    (resource ns name e : String) :
    (checkResource t.apiGroup t.apiVersion resource ns "not required" = some e →
        t.Create resource ns = .error e ∧ t.Update resource ns name = .error e)
  ∧ (checkResource t.apiGroup t.apiVersion resource ns name = some e →
        t.Get resource ns name = .error e ∧ t.Delete resource ns name = .error e)
  ∧ (checkResource t.apiGroup t.apiVersion resource ns "name not required" = some e →
        t.List resource ns = .error e ∧ t.Watch resource ns = .error e) := by
  refine ⟨fun h => ⟨?_, ?_⟩, fun h => ⟨?_, ?_⟩, fun h => ⟨?_, ?_⟩⟩ <;>
    simp [ThirdPartyResources.Create, ThirdPartyResources.Update,
      ThirdPartyResources.Get, ThirdPartyResources.Delete,
      ThirdPartyResources.List, ThirdPartyResources.Watch, h]

/-- C6 witness: a client with an empty API group fails `Create` with the validation
error before any dispatch. -/
theorem tpr_validation_short_circuits_witness :
    ThirdPartyResources.Create ⟨"", "v"⟩ "r" "n" = Except.error "no api group provided" :=
  ((tpr_validation_short_circuits ⟨"", "v"⟩ "r" "n" "x" "no api group provided").1 rfl).1

/-- C7: whenever the underlying watcher's `next` succeeds,
`ThirdPartyResourceWatcher.Next` returns the event envelope with a nil typed object
and a nil error, at every caller-supplied type; the raw payload bytes are only
printed (the first component of the result), never decoded. -/
theorem tpr_next_success_returns_nil_object {ε α : Type} (ρ : Type) (a : α)
    (u : Unknown) (cr : Option ε) :
    ThirdPartyResourceWatcher.Next ρ ⟨⟨Except.ok (a, u), cr⟩⟩
      = ([u.Raw], (some a, none, none)) :=
  rfl

/-- C8: when the underlying watcher's `next` returns an error, both typed watch
adapters return (nil, nil, e) with e exactly that error; `APIWatcher.Next` gives the
same result for every decode function (no decode is attempted), and the third-party
adapter prints nothing. -/
theorem watch_adapters_propagate_stream_errors {ε α ρ : Type} (e : ε)
    (dec : List Nat → Except ε ρ) (cr : Option ε) :
    APIWatcher.Next (⟨⟨Except.error e, cr⟩⟩ : APIWatcher ε α) dec = (none, none, some e)
  ∧ ThirdPartyResourceWatcher.Next ρ (⟨⟨Except.error e, cr⟩⟩ : ThirdPartyResourceWatcher ε α)
      = ([], (none, none, some e)) :=
  ⟨rfl, rfl⟩

/-- C9: both typed watch adapters' `Close` delegates directly to the wrapped
watcher's `Close` and returns exactly its result. -/
theorem watch_adapters_close_delegates {ε α : Type} (w : APIWatcher ε α)
    (w2 : ThirdPartyResourceWatcher ε α) :
    w.Close = w.watcher.Close ∧ w2.Close = w2.watcher.Close :=
  ⟨rfl, rfl⟩

/-- C10: `Discovery.APIWatch` performs no resource-identity validation: for every
`groupName` and `groupVersion` (empty strings included), every error it returns is
exactly the error of the watch-open call on the URL it built, and whenever the
watch-open call succeeds it returns the wrapped watcher — it never returns a
validation error of its own. -/
theorem apiwatch_no_validation {ε α : Type}
    (watchOpen : String → Except ε (Watcher ε α)) (g v : String) :
    (∀ e, Discovery.APIWatch watchOpen g v = .error e →
        watchOpen (Discovery.apiWatchUrl g v) = .error e)
  ∧ (∀ w, watchOpen (Discovery.apiWatchUrl g v) = .ok w →
        Discovery.APIWatch watchOpen g v = .ok ⟨w⟩) := by
  constructor
  · intro e h
    unfold Discovery.APIWatch at h
    cases hw : watchOpen (Discovery.apiWatchUrl g v) with
    | error e2 =>
      rw [hw] at h
      simp at h
      rw [h]
    | ok w =>
      rw [hw] at h
      simp at h
  · intro w h
    simp [Discovery.APIWatch, h]

/-- C10 witness: with both identity arguments empty, the error `APIWatch` returns is
the watch-open failure itself, not a validation error. -/
theorem apiwatch_no_validation_witness :
    (fun _ : String => (Except.error "boom" : Except String (Watcher String Nat)))
        (Discovery.apiWatchUrl "" "")
      = Except.error "boom" :=
  (apiwatch_no_validation
      (fun _ : String => (Except.error "boom" : Except String (Watcher String Nat)))
      "" "").1 "boom" rfl
